import Mathlib

/-!
# Verification of the notion-bible batching and delivery pipeline

Shallow embedding of the request-batching and throttled-delivery code in
`src/notion.js` and the chapter extraction in `src/main.js`, with theorems
checking the specification's claims against the code.
-/

namespace NotionBible

/-! ## Data model (src/schemas.js and the shapes built in src/notion.js) -/

/-- One verse record: `{verse: number, text: string}`. -/
structure VerseRecord where
  verse : Nat
  text : String
  deriving DecidableEq

/-- One chapter record: `{title: string, verses: [...]}`. -/
structure ChapterRecord where
  title : String
  verses : List VerseRecord
  deriving DecidableEq

/-- One book record: `{bookName: string, chapters: [...]}`. -/
structure BookRecord where
  bookName : String
  chapters : List ChapterRecord
  deriving DecidableEq

/-- The persisted artifact `{version, ot, nt}` validated by `VersesDataSchema`. -/
structure Bible where
  version : String
  ot : List BookRecord
  nt : List BookRecord
  deriving DecidableEq

/-- A rich text object `{type:'text', text:{content}, annotations:{bold:true}}`.
The JS object either carries `annotations:{bold:true}` or no annotations key at
all; we model that as a boolean `bold` flag (`false` = no bold annotation). -/
structure RichTextSpan where
  content : String
  bold : Bool
  deriving DecidableEq

/-- A paragraph block `{object:'block', type:'paragraph', paragraph:{rich_text}}`. -/
structure Block where
  rich_text : List RichTextSpan
  deriving DecidableEq

/-- A select property value `{name, color}`. -/
structure SelectProp where
  name : String
  color : String
  deriving DecidableEq

/-- One `notion.pages.create` payload as assembled in `processBook`
(src/notion.js lines 144-182): parent database id, the `Name` title text, the
`Chapter` number, the `Book` select, the `Book Index` number, the `Testament`
select, and the `children` block list. -/
structure CreateRequest where
  database_id : String
  nameTitle : String
  chapter : Nat
  book : SelectProp
  bookIndex : Nat
  testament : SelectProp
  children : List Block
  deriving DecidableEq

/-! ## Constants (src/notion.js lines 29-49) -/

def GROUPED_BLOCK_SIZE : Nat := 1000

def GROUP_RICH_TEXT_SIZE : Nat := 100

def MAX_RETRY_COUNT : Nat := 10

def RETRY_WAIT_TIME : Nat := 2000

def notionColors : List String :=
  ["gray", "brown", "orange", "yellow", "green", "blue", "purple", "pink", "red"]

/-! ## splitArrayIntoChunks (src/notion.js lines 256-262)

The JS loop `for (let i = 0; i < arr.length; i += chunkSize)` pushes
`arr.slice(i, i + chunkSize)` each iteration.  We render the loop as recursion
on the remaining list; the recursion is made structural on a fuel argument
initialised to `arr.length`, which suffices for every `chunkSize ≥ 1` (each
iteration consumes at least one element).  All call sites in the source use
chunk sizes 3, 100 and 1000; with `chunkSize = 0` the JS loop would never
terminate, and the fuel-0 branch is never reached for `chunkSize ≥ 1`. -/

def splitChunksGo (chunkSize : Nat) : Nat → List α → List (List α)
  | 0, _ => []
  | _, [] => []
  | fuel + 1, arr => arr.take chunkSize :: splitChunksGo chunkSize fuel (arr.drop chunkSize)

def splitArrayIntoChunks (arr : List α) (chunkSize : Nat) : List (List α) :=
  splitChunksGo chunkSize arr.length arr

/-! ## Payload Batcher (processBook, src/notion.js lines 84-185) -/

/-- The inner `verses.reduce` of `processBook` (lines 92-111): for the verse at
position `verseIdx` it pushes a bold span `` `${verse} ` `` and a plain span
holding the verse text, space-suffixed unless `verseIdx === verses.length - 1`.
`total` carries `verses.length` of the whole chapter so that the
`isLastVerse` test matches the source. -/
def richTextObjectsGo (total : Nat) : Nat → List VerseRecord → List RichTextSpan
  | _, [] => []
  | verseIdx, v :: rest =>
    { content := toString v.verse ++ " ", bold := true }
      :: { content := if verseIdx = total - 1 then v.text else v.text ++ " ", bold := false }
      :: richTextObjectsGo total (verseIdx + 1) rest

/-- The `totalRichTextObjects` list of `processBook`: the flat span list of one
chapter, two spans per verse, in verse order. -/
def totalRichTextObjects (verses : List VerseRecord) : List RichTextSpan :=
  richTextObjectsGo verses.length 0 verses

/-- The per-chapter body of the `chapters.reduce` in `processBook`
(lines 87-182): group spans into blocks of ≤ `GROUP_RICH_TEXT_SIZE`, group
blocks into request bodies of ≤ `GROUPED_BLOCK_SIZE`, and emit one
`CreateRequest` per block group.  `idx` is the 0-based chapter position, so the
`Chapter` property is `idx + 1`; the `Name` title is the chapter record's
`title` field; the `Book` select color is `notionColors[bookIdx % 9]`. -/
def chapterRequests (databaseId bookName : String) (bookIdx : Nat) (testament : String)
    (idx : Nat) (ch : ChapterRecord) : List CreateRequest :=
  let totalRich := totalRichTextObjects ch.verses
  let groupedRichTextObjects := splitArrayIntoChunks totalRich GROUP_RICH_TEXT_SIZE
  let totalBlocks := groupedRichTextObjects.map (fun richTextObjects => Block.mk richTextObjects)
  let groupedBlocks := splitArrayIntoChunks totalBlocks GROUPED_BLOCK_SIZE
  groupedBlocks.map (fun children =>
    { database_id := databaseId
      nameTitle := ch.title
      chapter := idx + 1
      book := { name := bookName, color := notionColors.getD (bookIdx % notionColors.length) "" }
      bookIndex := bookIdx
      testament := { name := testament
                     color := if testament = "OT" then "purple" else "blue" }
      children := children })

/-- The chapter-indexed `chapters.reduce` of `processBook`: `idx` is the
0-based position of the chapter being folded; each chapter pushes its
requests onto the accumulator in order. -/
def requestsDataGo (databaseId bookName : String) (bookIdx : Nat) (testament : String) :
    Nat → List ChapterRecord → List CreateRequest
  | _, [] => []
  | idx, ch :: rest =>
    chapterRequests databaseId bookName bookIdx testament idx ch
      ++ requestsDataGo databaseId bookName bookIdx testament (idx + 1) rest

/-- The `requestsData` list of `processBook`: every chapter's requests in
chapter order, chapter positions numbered from 0. -/
def requestsData (book : BookRecord) (bookIdx : Nat) (testament databaseId : String) :
    List CreateRequest :=
  requestsDataGo databaseId book.bookName bookIdx testament 0 book.chapters

/-! ## processBible (src/notion.js lines 55-82) -/

/-- The `bookIdx` computation in `processBible` (lines 60-62):
`testament.findIndex(item => item.bookName === book.bookName)` plus
`bible.ot.length` for the new testament.  Lean's `List.findIdx` returns the
list length when no element matches, where JS `findIndex` returns `-1`; the
book itself is always a member of the testament being folded, so a match
always exists and the two agree. -/
def bookGlobalIdx (bible : Bible) (testamentIdx : Nat) (book : BookRecord) : Nat :=
  (if testamentIdx = 0 then bible.ot else bible.nt).findIdx
      (fun item => item.bookName == book.bookName)
    + (if testamentIdx = 0 then 0 else bible.ot.length)

/-- The full request sequence constructed by `processBible`: old-testament
books in order, then new-testament books in order; each book is processed by
`processBook` with 1-based book index `bookIdx + 1` and testament tag
`'OT'`/`'NT'`. -/
def processBibleRequests (bible : Bible) (databaseId : String) : List CreateRequest :=
  (bible.ot.map (fun book =>
      requestsData book (bookGlobalIdx bible 0 book + 1) "OT" databaseId)).flatten
    ++ (bible.nt.map (fun book =>
      requestsData book (bookGlobalIdx bible 1 book + 1) "NT" databaseId)).flatten

/-! ## Throttled Delivery Engine (src/notion.js lines 187-249)

### Promise timing for the group chain

The function `processBook` chunks `requestsData` into groups of 3 and chains
one function per group; the chain advances to group `g + 1` when the promise
returned by group `g`'s function resolves.  That promise is (line 237)

  `Promise.all([chunkOfRequests, wait(getWaitTime())])`

where `chunkOfRequests` is a JS **Array** of request promises.  JS
`Promise.all` coerces each element of its iterable with `Promise.resolve`;
an Array is not a thenable, so that element resolves immediately with the
array as its value — the request promises inside it are not awaited.  We
model the resolve time (relative to the group's start) of a `Promise.all`
argument element accordingly. -/

/-- An element of the iterable passed to `Promise.all`: a plain (non-thenable)
value resolves immediately; a thenable resolves at its own resolve time. -/
inductive PromiseElem where
  | value
  | thenable (resolveTime : Nat)
  deriving DecidableEq

def promiseElemResolveTime : PromiseElem → Nat
  | PromiseElem.value => 0
  | PromiseElem.thenable t => t

/-- A `Promise.all(elems)` call resolves when the latest thenable element
resolves (immediately if there is none). -/
def promiseAllResolveTime (elems : List PromiseElem) : Nat :=
  (elems.map promiseElemResolveTime).foldr max 0

/-- Resolve time, relative to the group's start, of the promise returned by the
group function at line 237: the first `Promise.all` element is the request
Array (non-thenable, hence `PromiseElem.value`), the second is the
`wait(getWaitTime())` timer resolving after `waitTime`.  The settle times of
the requests in the group (`requestSettleTimes`) do not enter the result,
because the Array element never awaits them. -/
def chunkPromiseResolveTime (requestSettleTimes : List Nat) (waitTime : Nat) : Nat :=
  promiseAllResolveTime [PromiseElem.value, PromiseElem.thenable waitTime]

/-- Modelled from the spec and the code's own comment at lines 231-235
("Return a promise that resolves after 2 conditions: 1. The 3 requests are
complete 2. A specified amount of time has passed"): the intended resolve
time waits for both the requests and the timer. -/
def chunkPromiseResolveTimeSpec (requestSettleTimes : List Nat) (waitTime : Nat) : Nat :=
  max (requestSettleTimes.foldr max 0) waitTime

/-- Absolute start time of group `g` in the promise chain of `processBook`
(lines 241-247): group 0 starts at time 0 and group `g + 1` starts when
group `g`'s returned promise resolves.  `settleTimes g` lists the settle
times (relative to the group start) of the requests fired in group `g`;
`waitTimes g` is the `getWaitTime()` value drawn for group `g`. -/
def groupStartTime (settleTimes : Nat → List Nat) (waitTimes : Nat → Nat) : Nat → Nat
  | 0 => 0
  | g + 1 =>
    groupStartTime settleTimes waitTimes g
      + chunkPromiseResolveTime (settleTimes g) (waitTimes g)

/-! ### The per-request retry loop `keepTrying` (src/notion.js lines 202-228) -/

/-- Events observable from one request's retry loop: the `k`-th (1-based) call
to `notion.pages.create`, and a `wait(ms)` pause inserted before a retry. -/
inductive RetryEvent where
  | attempt (k : Nat)
  | pause (ms : Nat)
  deriving DecidableEq

/-- Terminal outcome of one request: the create call eventually resolved, or
the retry budget was exhausted and the process exited after logging the
request's `Name` title. -/
inductive RetryResult where
  | success
  | fatal (loggedTitle : String)
  deriving DecidableEq

/-- JS `Math.ceil(retryCount / 2)` for a natural `retryCount`. -/
def jsCeilHalf (retryCount : Nat) : Nat := (retryCount + 1) / 2

/-- Model of `keepTrying`: `fails k = true` means the `k`-th (1-based) call to
`notion.pages.create` rejects; `title` is
`data.properties.Name.title[0].text.content`; `c` is the current value of the
`retryCount` counter (the number of failures so far).  On a failure the
counter becomes `c + 1`; if it reached `MAX_RETRY_COUNT` the title is logged
and `process.exit()` runs (`RetryResult.fatal`), otherwise the
`Math.ceil(retryCount / 2)` truthiness test selects between
`wait(RETRY_WAIT_TIME).then(keepTrying)` (a pause, then retry) and a bare
`keepTrying()` (immediate retry).  The recursion is made structural on a fuel
argument; the wrapper passes `MAX_RETRY_COUNT`, which suffices because the
counter strictly increases towards `MAX_RETRY_COUNT`, so the fuel-0 branch is
never reached. -/
def keepTryingGo (fails : Nat → Bool) (title : String) :
    Nat → Nat → List RetryEvent × RetryResult
  | c, 0 =>
    ([RetryEvent.attempt (c + 1)],
      if fails (c + 1) then RetryResult.fatal title else RetryResult.success)
  | c, fuel + 1 =>
    if fails (c + 1) then
      if c + 1 = MAX_RETRY_COUNT then
        ([RetryEvent.attempt (c + 1)], RetryResult.fatal title)
      else if jsCeilHalf (c + 1) ≠ 0 then
        let r := keepTryingGo fails title (c + 1) fuel
        (RetryEvent.attempt (c + 1) :: RetryEvent.pause RETRY_WAIT_TIME :: r.1, r.2)
      else
        let r := keepTryingGo fails title (c + 1) fuel
        (RetryEvent.attempt (c + 1) :: r.1, r.2)
    else ([RetryEvent.attempt (c + 1)], RetryResult.success)

/-- One request's full retry loop, starting with `retryCount = 0`. -/
def keepTrying (fails : Nat → Bool) (title : String) : List RetryEvent × RetryResult :=
  keepTryingGo fails title 0 MAX_RETRY_COUNT

def isAttempt : RetryEvent → Bool
  | RetryEvent.attempt _ => true
  | RetryEvent.pause _ => false

/-- Total duration of the pauses in a retry trace. -/
def pauseSum (evs : List RetryEvent) : Nat :=
  (evs.map (fun e => match e with
    | RetryEvent.pause ms => ms
    | RetryEvent.attempt _ => 0)).sum

/-- One full run of `processBible`, parametrised by the two sources of
run-to-run variation: the random `getWaitTime()` draws and the request settle
times (network latency and retries).  The request payloads are assembled by
`requestsData` before any promise fires and read neither source; only the
schedule does. -/
structure RunOutcome where
  payloads : List CreateRequest
  groupStarts : Nat → Nat

def processBibleRun (bible : Bible) (databaseId : String)
    (waitTimes : Nat → Nat) (settleTimes : Nat → List Nat) : RunOutcome :=
  { payloads := processBibleRequests bible databaseId
    groupStarts := groupStartTime settleTimes waitTimes }

/-! ## Chapter Extractor (getChapterVerses, src/main.js lines 138-172)

The DOM is abstracted into the data `getChapterVerses` reads after cheerio
parsing and the `sup`/`.chapternum` removals: the two fields obtained from
the `data-osis` attribute (`bookAbbreviation`, the first dotted segment, and
`numOfVerses`, the numeric last segment — `numOfVerses = 0` covers the
absent/zero/NaN cases, all falsy in JS), and `fragments v`, the ordered texts
of the elements matching `p .{abbreviation}-{chapter}-{v}`, each already
processed by `checkSmallCapsAndGetText` (small-caps spans upper-cased, result
trimmed). -/

structure ChapterPage where
  bookAbbreviation : String
  numOfVerses : Nat
  fragments : Nat → List String

/-- The `replaceQuotationMarks` transform (src/main.js lines 214-216):
typographic single quotes become an apostrophe (code point 39) and
typographic double quotes become a straight quote (code point 34).  The JS
applies two global per-character `.replace` passes; since neither output
character belongs to either replaced set, the sequential passes equal this
single map over the character list. -/
def replaceQuotationMarks (s : String) : String :=
  String.mk (s.data.map (fun c =>
    if c = '‘' ∨ c = '’' then Char.ofNat 39
    else if c = '“' ∨ c = '”' then Char.ofNat 34
    else c))

/-- The verse-collection part of `getChapterVerses`: throw if the abbreviation
is empty or the verse count is falsy; otherwise build one verse text per
number `1..numOfVerses` — the single matching fragment's text if exactly one
matches, else the fragment texts joined by a single space (an empty join for
zero matches) — and pass it through `replaceQuotationMarks`. -/
def getChapterVerses (page : ChapterPage) : Except String (List String) :=
  if page.bookAbbreviation = "" ∨ page.numOfVerses = 0 then
    Except.error "Error with calculating osis data for chapter"
  else
    Except.ok ((List.range page.numOfVerses).map (fun i =>
      let verseEls := page.fragments (i + 1)
      let verseText :=
        match verseEls with
        | [t] => t
        | _ => String.intercalate " " verseEls
      replaceQuotationMarks verseText))

/-! ## Concrete data used by witnesses and counterexamples -/

/-- The three-verse chapter of the spec's scenario. -/
def scenarioVerses : List VerseRecord :=
  [⟨1, "In the beginning"⟩, ⟨2, "the earth"⟩, ⟨3, "was void"⟩]

/-- A long sample chapter text: 60 verses, hence 120 spans and a chunk
boundary inside the chapter. -/
def psalmVerses : List VerseRecord :=
  (List.range 60).map (fun i => ⟨i + 1, "amen"⟩)

/-- A two-book bible (one per testament) with distinct names. -/
def bibleTwo : Bible :=
  { version := "esv"
    ot := [⟨"Genesis", [⟨"Genesis 1", [⟨1, "In the beginning"⟩]⟩]⟩]
    nt := [⟨"Matthew", [⟨"Matthew 1", [⟨1, "The book"⟩]⟩]⟩] }

/-- The single request `processBible` emits for the New Testament book of
`bibleTwo`: 1-based global book index 2, palette color `2 % 9 = 2`
(`"orange"`). -/
def matthewRequest : CreateRequest :=
  { database_id := "db"
    nameTitle := "Matthew 1"
    chapter := 1
    book := ⟨"Matthew", "orange"⟩
    bookIndex := 2
    testament := ⟨"NT", "blue"⟩
    children := [⟨[⟨"1 ", true⟩, ⟨"The book", false⟩]⟩] }

/-- A bible whose single chapter record carries a stored title different from
`{bookName} {chapterNumber}`. -/
def mislabeledBible : Bible :=
  { version := "v"
    ot := [⟨"Genesis", [⟨"Not the book name", [⟨1, "text"⟩]⟩]⟩]
    nt := [] }

/-- A sample chapter page whose second verse number matches no fragment. -/
def gappedPage : ChapterPage :=
  { bookAbbreviation := "Gen"
    numOfVerses := 2
    fragments := fun n => if n = 1 then ["In the beginning"] else [] }

/-! ## Lemmas about splitArrayIntoChunks -/

theorem splitChunksGo_fuel (n : Nat) (hn : 0 < n) :
    ∀ (fuel₁ fuel₂ : Nat) (xs : List α), xs.length ≤ fuel₁ → xs.length ≤ fuel₂ →
      splitChunksGo n fuel₁ xs = splitChunksGo n fuel₂ xs := by
  intro fuel₁
  induction fuel₁ with
  | zero =>
    intro fuel₂ xs h₁ _
    have hxs : xs = [] := List.eq_nil_of_length_eq_zero (Nat.le_zero.mp h₁)
    subst hxs
    cases fuel₂ <;> rfl
  | succ f ih =>
    intro fuel₂ xs h₁ h₂
    cases xs with
    | nil => cases fuel₂ <;> rfl
    | cons a as =>
      cases fuel₂ with
      | zero => simp at h₂
      | succ f₂ =>
        simp only [splitChunksGo]
        congr 1
        have hd : ((a :: as).drop n).length = (a :: as).length - n := List.length_drop n _
        have hc : (a :: as).length = as.length + 1 := List.length_cons a as
        apply ih
        · omega
        · omega

/-- Unfolding equation for `splitArrayIntoChunks` on a non-empty list with a
positive chunk size. -/
theorem splitArrayIntoChunks_cons (n : Nat) (hn : 0 < n) (xs : List α) (hxs : xs ≠ []) :
    splitArrayIntoChunks xs n = xs.take n :: splitArrayIntoChunks (xs.drop n) n := by
  cases xs with
  | nil => exact absurd rfl hxs
  | cons a as =>
    show splitChunksGo n (as.length + 1) (a :: as) = _
    simp only [splitChunksGo]
    congr 1
    have hd : ((a :: as).drop n).length = (a :: as).length - n := List.length_drop n _
    have hc : (a :: as).length = as.length + 1 := List.length_cons a as
    apply splitChunksGo_fuel n hn
    · omega
    · omega

theorem splitArrayIntoChunks_nil (n : Nat) :
    splitArrayIntoChunks ([] : List α) n = [] := rfl

theorem join_splitChunksGo (n : Nat) (hn : 0 < n) :
    ∀ (fuel : Nat) (xs : List α), xs.length ≤ fuel →
      (splitChunksGo n fuel xs).flatten = xs := by
  intro fuel
  induction fuel with
  | zero =>
    intro xs h
    have hxs : xs = [] := List.eq_nil_of_length_eq_zero (Nat.le_zero.mp h)
    subst hxs; rfl
  | succ f ih =>
    intro xs h
    cases xs with
    | nil => rfl
    | cons a as =>
      simp only [splitChunksGo, List.flatten_cons]
      have hd : ((a :: as).drop n).length = (a :: as).length - n := List.length_drop n _
      have hc : (a :: as).length = as.length + 1 := List.length_cons a as
      rw [ih _ (by omega)]
      exact List.take_append_drop n (a :: as)

/-- Concatenating the chunks in order gives back the original list: the
partition preserves order and loses nothing. -/
theorem join_splitArrayIntoChunks (n : Nat) (hn : 0 < n) (xs : List α) :
    (splitArrayIntoChunks xs n).flatten = xs :=
  join_splitChunksGo n hn xs.length xs (Nat.le_refl _)

theorem length_le_of_mem_splitChunksGo (n : Nat) :
    ∀ (fuel : Nat) (xs : List α) (c : List α), c ∈ splitChunksGo n fuel xs →
      c.length ≤ n := by
  intro fuel
  induction fuel with
  | zero => intro xs c hc; simp [splitChunksGo] at hc
  | succ f ih =>
    intro xs c hc
    cases xs with
    | nil => simp [splitChunksGo] at hc
    | cons a as =>
      simp only [splitChunksGo] at hc
      rcases List.mem_cons.mp hc with h | h
      · subst h
        calc ((a :: as).take n).length = min n (a :: as).length := List.length_take n _
          _ ≤ n := Nat.min_le_left _ _
      · exact ih _ _ h

/-- Every chunk holds at most `n` elements. -/
theorem length_le_of_mem_splitArrayIntoChunks (n : Nat) (xs : List α)
    (c : List α) (hc : c ∈ splitArrayIntoChunks xs n) : c.length ≤ n :=
  length_le_of_mem_splitChunksGo n xs.length xs c hc

theorem splitChunksGo_nil (n fuel : Nat) :
    splitChunksGo n fuel ([] : List α) = [] := by
  cases fuel <;> rfl

theorem splitChunksGo_full (n : Nat) (hn : 0 < n) :
    ∀ (fuel : Nat) (xs : List α), xs.length ≤ fuel →
      ∀ i, i + 1 < (splitChunksGo n fuel xs).length →
        ∃ c, (splitChunksGo n fuel xs).get? i = some c ∧ c.length = n := by
  intro fuel
  induction fuel with
  | zero =>
    intro xs h i hi
    have hxs : xs = [] := List.eq_nil_of_length_eq_zero (Nat.le_zero.mp h)
    subst hxs; simp [splitChunksGo] at hi
  | succ f ih =>
    intro xs h i hi
    cases xs with
    | nil => simp [splitChunksGo_nil] at hi
    | cons a as =>
      simp only [splitChunksGo] at hi ⊢
      cases i with
      | zero =>
        refine ⟨(a :: as).take n, rfl, ?_⟩
        have hrest : splitChunksGo n f ((a :: as).drop n) ≠ [] := by
          intro hemp
          rw [List.length_cons, hemp] at hi
          simp at hi
        have hdropne : (a :: as).drop n ≠ [] := by
          intro hemp
          exact hrest (hemp ▸ splitChunksGo_nil n f)
        have hlen : n < (a :: as).length := by
          by_contra hle
          exact hdropne (List.drop_eq_nil_of_le (Nat.le_of_not_lt hle))
        calc ((a :: as).take n).length = min n (a :: as).length := List.length_take n _
          _ = n := Nat.min_eq_left (Nat.le_of_lt hlen)
      | succ i =>
        have hd : ((a :: as).drop n).length = (a :: as).length - n := List.length_drop n _
        have hc : (a :: as).length = as.length + 1 := List.length_cons a as
        have := ih ((a :: as).drop n) (by omega) i (by
          rw [List.length_cons] at hi
          omega)
        simpa using this

/-- Every chunk other than the last holds exactly `n` elements (only the last
chunk may hold fewer). -/
theorem splitArrayIntoChunks_full (n : Nat) (hn : 0 < n) (xs : List α)
    (i : Nat) (hi : i + 1 < (splitArrayIntoChunks xs n).length) :
    ∃ c, (splitArrayIntoChunks xs n).get? i = some c ∧ c.length = n :=
  splitChunksGo_full n hn xs.length xs (Nat.le_refl _) i hi

theorem splitChunksGo_get (n : Nat) (hn : 0 < n) :
    ∀ (fuel : Nat) (xs : List α), xs.length ≤ fuel →
      ∀ j, j < xs.length →
        ∃ c, (splitChunksGo n fuel xs).get? (j / n) = some c ∧
          c.get? (j % n) = xs.get? j := by
  intro fuel
  induction fuel with
  | zero =>
    intro xs h j hj
    omega
  | succ f ih =>
    intro xs h j hj
    cases xs with
    | nil => simp at hj
    | cons a as =>
      simp only [splitChunksGo]
      by_cases hjn : j < n
      · refine ⟨(a :: as).take n, ?_, ?_⟩
        · rw [Nat.div_eq_of_lt hjn]; rfl
        · rw [Nat.mod_eq_of_lt hjn]
          exact List.get?_take hjn
      · obtain ⟨k, rfl⟩ : ∃ k, j = n + k :=
          ⟨j - n, by omega⟩
        have hdiv : (n + k) / n = k / n + 1 := by
          rw [Nat.add_comm n k]
          exact Nat.add_div_right k hn
        have hmod : (n + k) % n = k % n := Nat.add_mod_left n k
        have hd : ((a :: as).drop n).length = (a :: as).length - n := List.length_drop n _
        have hcns : (a :: as).length = as.length + 1 := List.length_cons a as
        obtain ⟨c, hc1, hc2⟩ := ih ((a :: as).drop n) (by omega) k (by omega)
        refine ⟨c, ?_, ?_⟩
        · rw [hdiv]; simpa using hc1
        · rw [hmod, hc2, List.get?_drop]

/-- The element of `xs` at global index `j` sits in chunk `j / n` at offset
`j % n`. -/
theorem splitArrayIntoChunks_get (n : Nat) (hn : 0 < n) (xs : List α)
    (j : Nat) (hj : j < xs.length) :
    ∃ c, (splitArrayIntoChunks xs n).get? (j / n) = some c ∧
      c.get? (j % n) = xs.get? j :=
  splitChunksGo_get n hn xs.length xs (Nat.le_refl _) j hj

/-! ## Structure of the flat span list -/

theorem richTextObjectsGo_length (total : Nat) :
    ∀ (i : Nat) (vs : List VerseRecord),
      (richTextObjectsGo total i vs).length = 2 * vs.length := by
  intro i vs
  induction vs generalizing i with
  | nil => rfl
  | cons v rest ih =>
    simp only [richTextObjectsGo, List.length_cons, ih]
    omega

theorem richTextObjectsGo_get (total : Nat) :
    ∀ (vs : List VerseRecord) (i k : Nat) (v : VerseRecord), vs.get? k = some v →
      (richTextObjectsGo total i vs).get? (2 * k)
          = some { content := toString v.verse ++ " ", bold := true }
        ∧ (richTextObjectsGo total i vs).get? (2 * k + 1)
          = some { content := if i + k = total - 1 then v.text else v.text ++ " "
                   bold := false } := by
  intro vs
  induction vs with
  | nil => intro i k v hv; simp at hv
  | cons w rest ih =>
    intro i k v hv
    cases k with
    | zero =>
      have hw : w = v := by simpa using hv
      subst hw
      constructor
      · rfl
      · simp only [richTextObjectsGo]
        norm_num
    | succ k =>
      have hv' : rest.get? k = some v := by simpa using hv
      have h := ih (i + 1) k v hv'
      have e1 : 2 * (k + 1) = (2 * k) + 1 + 1 := by omega
      have e2 : 2 * (k + 1) + 1 = ((2 * k) + 1) + 1 + 1 := by omega
      constructor
      · rw [e1]
        simpa [richTextObjectsGo] using h.1
      · rw [e2]
        have e3 : i + 1 + k = i + (k + 1) := by omega
        simpa [richTextObjectsGo, e3] using h.2

/-- Claim C4: for every chapter, `totalRichTextObjects` emits exactly `2 ×`
the verse count of `RichTextSpan`s, in verse order: the span at index `2k` is
the bold verse-number label `` `${verse} ` `` of the verse at position `k`,
and the span at index `2k + 1` is that verse's non-bold text, space-suffixed
unless the verse is the last of the chapter. -/
theorem verse_spans_pairs (verses : List VerseRecord) :
    (totalRichTextObjects verses).length = 2 * verses.length
    ∧ ∀ (k : Nat) (v : VerseRecord), verses.get? k = some v →
        (totalRichTextObjects verses).get? (2 * k)
            = some { content := toString v.verse ++ " ", bold := true }
          ∧ (totalRichTextObjects verses).get? (2 * k + 1)
            = some { content := if k = verses.length - 1 then v.text else v.text ++ " "
                     bold := false } := by
  constructor
  · exact richTextObjectsGo_length verses.length 0 verses
  · intro k v hv
    have h := richTextObjectsGo_get verses.length verses 0 k v hv
    simpa using h

/-- Witness for `verse_spans_pairs` (claim C4) at the spec's three-verse
scenario: six spans, the pair of the final verse being bold `"3 "` and plain
`"was void"` with no trailing space. -/
theorem verse_spans_pairs_witness :
    (totalRichTextObjects scenarioVerses).length = 2 * scenarioVerses.length
    ∧ (totalRichTextObjects scenarioVerses).get? 4
        = some { content := "3 ", bold := true }
    ∧ (totalRichTextObjects scenarioVerses).get? 5
        = some { content := "was void", bold := false } := by
  have h := verse_spans_pairs scenarioVerses
  have h2 := h.2 2 ⟨3, "was void"⟩ (by rfl)
  exact ⟨h.1, by simpa using h2.1, by simpa using h2.2⟩

/-- Claim C5: chunk boundaries never split a verse's two spans across two
Blocks — the spans at indices `2k` and `2k + 1` always land in the same
100-span chunk (adjacent within it), because chunk boundaries fall at
multiples of the even chunk size 100 while a verse's pair starts at an even
index — and the partitions at both levels preserve order: flattening the span
chunks gives back the span list, and flattening the block chunks gives back
the block list, so no Block is split across two CreateRequests. -/
theorem chunking_never_splits (verses : List VerseRecord) :
    (∀ k, k < verses.length →
      ∃ c, (splitArrayIntoChunks (totalRichTextObjects verses) GROUP_RICH_TEXT_SIZE).get?
             ((2 * k) / GROUP_RICH_TEXT_SIZE) = some c
        ∧ c.get? ((2 * k) % GROUP_RICH_TEXT_SIZE)
            = (totalRichTextObjects verses).get? (2 * k)
        ∧ c.get? ((2 * k) % GROUP_RICH_TEXT_SIZE + 1)
            = (totalRichTextObjects verses).get? (2 * k + 1))
    ∧ (splitArrayIntoChunks (totalRichTextObjects verses) GROUP_RICH_TEXT_SIZE).flatten
        = totalRichTextObjects verses
    ∧ (splitArrayIntoChunks
          ((splitArrayIntoChunks (totalRichTextObjects verses) GROUP_RICH_TEXT_SIZE).map
            Block.mk)
          GROUPED_BLOCK_SIZE).flatten
        = (splitArrayIntoChunks (totalRichTextObjects verses) GROUP_RICH_TEXT_SIZE).map
            Block.mk := by
  have hsz : GROUP_RICH_TEXT_SIZE = 100 := rfl
  have hpos : 0 < GROUP_RICH_TEXT_SIZE := by decide
  refine ⟨?_, ?_, ?_⟩
  · intro k hk
    have hlen : (totalRichTextObjects verses).length = 2 * verses.length :=
      richTextObjectsGo_length verses.length 0 verses
    obtain ⟨c₁, hc₁, hg₁⟩ :=
      splitArrayIntoChunks_get GROUP_RICH_TEXT_SIZE hpos (totalRichTextObjects verses)
        (2 * k) (by omega)
    obtain ⟨c₂, hc₂, hg₂⟩ :=
      splitArrayIntoChunks_get GROUP_RICH_TEXT_SIZE hpos (totalRichTextObjects verses)
        (2 * k + 1) (by omega)
    have hdiv : (2 * k + 1) / GROUP_RICH_TEXT_SIZE = (2 * k) / GROUP_RICH_TEXT_SIZE := by
      rw [hsz]; omega
    have hmod : (2 * k + 1) % GROUP_RICH_TEXT_SIZE = (2 * k) % GROUP_RICH_TEXT_SIZE + 1 := by
      rw [hsz]; omega
    rw [hdiv] at hc₂
    have hcc : c₁ = c₂ := Option.some.inj (hc₁.symm.trans hc₂)
    refine ⟨c₁, hc₁, hg₁, ?_⟩
    rw [hcc, ← hmod]
    exact hg₂
  · exact join_splitArrayIntoChunks GROUP_RICH_TEXT_SIZE hpos _
  · exact join_splitArrayIntoChunks GROUPED_BLOCK_SIZE (by decide) _

/-- Witness for `chunking_never_splits` (claim C5): in a 60-verse chapter the
pair of verse position 50 (spans 100 and 101) lands wholly in the second
chunk. -/
theorem chunking_never_splits_witness :
    (∃ c, (splitArrayIntoChunks (totalRichTextObjects psalmVerses) GROUP_RICH_TEXT_SIZE).get?
            ((2 * 50) / GROUP_RICH_TEXT_SIZE) = some c
       ∧ c.get? ((2 * 50) % GROUP_RICH_TEXT_SIZE)
           = (totalRichTextObjects psalmVerses).get? (2 * 50)
       ∧ c.get? ((2 * 50) % GROUP_RICH_TEXT_SIZE + 1)
           = (totalRichTextObjects psalmVerses).get? (2 * 50 + 1))
    ∧ (splitArrayIntoChunks (totalRichTextObjects psalmVerses) GROUP_RICH_TEXT_SIZE).flatten
        = totalRichTextObjects psalmVerses :=
  ⟨(chunking_never_splits psalmVerses).1 50 (by decide),
   (chunking_never_splits psalmVerses).2.1⟩

/-- Claim C6: each Block holds at most `GROUP_RICH_TEXT_SIZE = 100` spans,
every span chunk other than the last holds exactly 100, each CreateRequest
holds at most `GROUPED_BLOCK_SIZE = 1000` Blocks, and both partitions
concatenate back to the original sequences. -/
theorem chunk_size_bounds (databaseId bookName : String) (bookIdx : Nat) (testament : String)
    (idx : Nat) (ch : ChapterRecord) :
    (∀ b ∈ (splitArrayIntoChunks (totalRichTextObjects ch.verses) GROUP_RICH_TEXT_SIZE).map
        Block.mk, b.rich_text.length ≤ GROUP_RICH_TEXT_SIZE)
    ∧ (∀ i, i + 1
          < (splitArrayIntoChunks (totalRichTextObjects ch.verses) GROUP_RICH_TEXT_SIZE).length →
        ∃ c, (splitArrayIntoChunks (totalRichTextObjects ch.verses) GROUP_RICH_TEXT_SIZE).get? i
              = some c
          ∧ c.length = GROUP_RICH_TEXT_SIZE)
    ∧ (∀ r ∈ chapterRequests databaseId bookName bookIdx testament idx ch,
        r.children.length ≤ GROUPED_BLOCK_SIZE)
    ∧ (splitArrayIntoChunks (totalRichTextObjects ch.verses) GROUP_RICH_TEXT_SIZE).flatten
        = totalRichTextObjects ch.verses
    ∧ (splitArrayIntoChunks
          ((splitArrayIntoChunks (totalRichTextObjects ch.verses) GROUP_RICH_TEXT_SIZE).map
            Block.mk)
          GROUPED_BLOCK_SIZE).flatten
        = (splitArrayIntoChunks (totalRichTextObjects ch.verses) GROUP_RICH_TEXT_SIZE).map
            Block.mk := by
  refine ⟨?_, ?_, ?_, ?_, ?_⟩
  · intro b hb
    obtain ⟨c, hc, rfl⟩ := List.mem_map.mp hb
    exact length_le_of_mem_splitArrayIntoChunks GROUP_RICH_TEXT_SIZE _ c hc
  · intro i hi
    exact splitArrayIntoChunks_full GROUP_RICH_TEXT_SIZE (by decide) _ i hi
  · intro r hr
    obtain ⟨children, hchildren, rfl⟩ := List.mem_map.mp hr
    exact length_le_of_mem_splitArrayIntoChunks GROUPED_BLOCK_SIZE _ children hchildren
  · exact join_splitArrayIntoChunks GROUP_RICH_TEXT_SIZE (by decide) _
  · exact join_splitArrayIntoChunks GROUPED_BLOCK_SIZE (by decide) _

/-- Witness for `chunk_size_bounds` (claim C6) on the 60-verse chapter: the
non-last span chunk holds exactly 100 spans, and the span partition flattens
back. -/
theorem chunk_size_bounds_witness :
    (∃ c, (splitArrayIntoChunks (totalRichTextObjects
            (ChapterRecord.mk "Psalms 119" psalmVerses).verses) GROUP_RICH_TEXT_SIZE).get? 0
          = some c
       ∧ c.length = GROUP_RICH_TEXT_SIZE)
    ∧ (splitArrayIntoChunks (totalRichTextObjects
          (ChapterRecord.mk "Psalms 119" psalmVerses).verses) GROUP_RICH_TEXT_SIZE).flatten
        = totalRichTextObjects (ChapterRecord.mk "Psalms 119" psalmVerses).verses :=
  ⟨(chunk_size_bounds "db" "Psalms" 19 "OT" 118 (ChapterRecord.mk "Psalms 119" psalmVerses)).2.1
      0 (by decide),
   (chunk_size_bounds "db" "Psalms" 19 "OT" 118
      (ChapterRecord.mk "Psalms 119" psalmVerses)).2.2.2.1⟩

/-! ## processBible: book indices and request fields -/

/-- When the book names are distinct, `findIndex` over the testament returns
the book's own position. -/
theorem findIdx_bookName_eq (l : List BookRecord)
    (hnodup : (l.map BookRecord.bookName).Nodup) :
    ∀ (i : Nat) (b : BookRecord), l.get? i = some b →
      l.findIdx (fun item => item.bookName == b.bookName) = i := by
  induction l with
  | nil => intro i b hb; simp at hb
  | cons a as ih =>
    intro i b hb
    cases i with
    | zero =>
      have hab : a = b := by simpa using hb
      subst hab
      simp [List.findIdx_cons]
    | succ i =>
      have hb' : as.get? i = some b := by simpa using hb
      have hmem : b ∈ as := List.get?_mem hb'
      have hmap : (List.map BookRecord.bookName (a :: as))
          = a.bookName :: as.map BookRecord.bookName := rfl
      rw [hmap, List.nodup_cons] at hnodup
      have hne : (a.bookName == b.bookName) = false := by
        rw [beq_eq_false_iff_ne]
        intro he
        exact hnodup.1 (he ▸ List.mem_map_of_mem BookRecord.bookName hmem)
      rw [List.findIdx_cons, hne]
      simp [ih hnodup.2 i b hb']

theorem bookGlobalIdx_ot (bible : Bible)
    (hnodup : (bible.ot.map BookRecord.bookName).Nodup)
    (i : Nat) (b : BookRecord) (hb : bible.ot.get? i = some b) :
    bookGlobalIdx bible 0 b = i := by
  unfold bookGlobalIdx
  simp [findIdx_bookName_eq bible.ot hnodup i b hb]

theorem bookGlobalIdx_nt (bible : Bible)
    (hnodup : (bible.nt.map BookRecord.bookName).Nodup)
    (i : Nat) (b : BookRecord) (hb : bible.nt.get? i = some b) :
    bookGlobalIdx bible 1 b = i + bible.ot.length := by
  unfold bookGlobalIdx
  simp [findIdx_bookName_eq bible.nt hnodup i b hb]

/-- The requests of the chapter at position `j` are among the book's
requests. -/
theorem mem_requestsDataGo (databaseId bookName : String) (bookIdx : Nat)
    (testament : String) :
    ∀ (chapters : List ChapterRecord) (i₀ j : Nat) (ch : ChapterRecord),
      chapters.get? j = some ch →
      ∀ r ∈ chapterRequests databaseId bookName bookIdx testament (i₀ + j) ch,
        r ∈ requestsDataGo databaseId bookName bookIdx testament i₀ chapters := by
  intro chapters
  induction chapters with
  | nil => intro i₀ j ch hch; simp at hch
  | cons c rest ih =>
    intro i₀ j ch hch r hr
    cases j with
    | zero =>
      have hc : c = ch := by simpa using hch
      subst hc
      exact List.mem_append_left _ (by simpa using hr)
    | succ j =>
      have hch' : rest.get? j = some ch := by simpa using hch
      apply List.mem_append_right
      have he : i₀ + (j + 1) = (i₀ + 1) + j := by omega
      exact ih (i₀ + 1) j ch hch' r (he ▸ hr)

/-- Every request built by `chapterRequests` carries exactly the property set
assembled at src/notion.js lines 144-182. -/
theorem chapterRequests_fields (databaseId bookName : String) (bookIdx : Nat)
    (testament : String) (idx : Nat) (ch : ChapterRecord) (r : CreateRequest)
    (hr : r ∈ chapterRequests databaseId bookName bookIdx testament idx ch) :
    r.database_id = databaseId ∧ r.nameTitle = ch.title ∧ r.chapter = idx + 1
    ∧ r.book = ⟨bookName, notionColors.getD (bookIdx % notionColors.length) ""⟩
    ∧ r.bookIndex = bookIdx
    ∧ r.testament = ⟨testament, if testament = "OT" then "purple" else "blue"⟩ := by
  obtain ⟨children, hchildren, rfl⟩ := List.mem_map.mp hr
  exact ⟨rfl, rfl, rfl, rfl, rfl, rfl⟩

/-- Claim C3 (amended): over a BookRecord sequence with distinct book names,
the request emitted for the chapter at position `j` of the book at global
position `i` (0-based, old testament first) belongs to the full
`processBible` output and carries: the chapter record's stored `title` field
as its Name (the batcher copies it verbatim rather than recomputing
`{bookName} {chapterNumber}`), the 1-based chapter number `j + 1`, the book
name, the 1-based global book index `i + 1`, the palette color at position
`(i + 1) % 9`, and the testament tag `"OT"`/`"NT"`. -/
theorem request_fields (bible : Bible) (databaseId : String)
    (hnodup : ((bible.ot ++ bible.nt).map BookRecord.bookName).Nodup)
    (i : Nat) (b : BookRecord) (hb : (bible.ot ++ bible.nt).get? i = some b)
    (j : Nat) (ch : ChapterRecord) (hch : b.chapters.get? j = some ch)
    (r : CreateRequest)
    (hr : r ∈ chapterRequests databaseId b.bookName (i + 1)
            (if i < bible.ot.length then "OT" else "NT") j ch) :
    r ∈ processBibleRequests bible databaseId
    ∧ r.nameTitle = ch.title
    ∧ r.chapter = j + 1
    ∧ r.book.name = b.bookName
    ∧ r.bookIndex = i + 1
    ∧ r.book.color = notionColors.getD ((i + 1) % notionColors.length) ""
    ∧ r.testament.name = (if i < bible.ot.length then "OT" else "NT") := by
  have hmapapp : ((bible.ot ++ bible.nt).map BookRecord.bookName)
      = bible.ot.map BookRecord.bookName ++ bible.nt.map BookRecord.bookName :=
    List.map_append _ _ _
  have hnodup_ot : (bible.ot.map BookRecord.bookName).Nodup :=
    List.Nodup.of_append_left (hmapapp ▸ hnodup)
  have hnodup_nt : (bible.nt.map BookRecord.bookName).Nodup :=
    List.Nodup.of_append_right (hmapapp ▸ hnodup)
  have hfields := chapterRequests_fields databaseId b.bookName (i + 1)
    (if i < bible.ot.length then "OT" else "NT") j ch r hr
  by_cases hi : i < bible.ot.length
  · have hb' : bible.ot.get? i = some b := by
      rw [← List.get?_append hi]
      exact hb
    have hmemb : b ∈ bible.ot := List.get?_mem hb'
    have hidx : bookGlobalIdx bible 0 b = i := bookGlobalIdx_ot bible hnodup_ot i b hb'
    have hrd : r ∈ requestsData b (i + 1) "OT" databaseId := by
      apply mem_requestsDataGo databaseId b.bookName (i + 1) "OT" b.chapters 0 j ch hch
      simpa [hi] using hr
    have hmem : r ∈ processBibleRequests bible databaseId := by
      apply List.mem_append_left
      rw [List.mem_flatten]
      refine ⟨requestsData b (bookGlobalIdx bible 0 b + 1) "OT" databaseId, ?_, ?_⟩
      · exact List.mem_map_of_mem _ hmemb
      · rw [hidx]; exact hrd
    refine ⟨hmem, hfields.2.1, hfields.2.2.1, ?_, hfields.2.2.2.2.1, ?_, ?_⟩
    · rw [hfields.2.2.2.1]
    · rw [hfields.2.2.2.1]
    · rw [hfields.2.2.2.2.2]
  · have hle : bible.ot.length ≤ i := Nat.le_of_not_lt hi
    have hb' : bible.nt.get? (i - bible.ot.length) = some b := by
      rw [← List.get?_append_right hle]
      exact hb
    have hmemb : b ∈ bible.nt := List.get?_mem hb'
    have hidx : bookGlobalIdx bible 1 b = i := by
      rw [bookGlobalIdx_nt bible hnodup_nt _ b hb']
      omega
    have hrd : r ∈ requestsData b (i + 1) "NT" databaseId := by
      apply mem_requestsDataGo databaseId b.bookName (i + 1) "NT" b.chapters 0 j ch hch
      simpa [hi] using hr
    have hmem : r ∈ processBibleRequests bible databaseId := by
      apply List.mem_append_right
      rw [List.mem_flatten]
      refine ⟨requestsData b (bookGlobalIdx bible 1 b + 1) "NT" databaseId, ?_, ?_⟩
      · exact List.mem_map_of_mem _ hmemb
      · rw [hidx]; exact hrd
    refine ⟨hmem, hfields.2.1, hfields.2.2.1, ?_, hfields.2.2.2.2.1, ?_, ?_⟩
    · rw [hfields.2.2.2.1]
    · rw [hfields.2.2.2.1]
    · rw [hfields.2.2.2.2.2]

/-- Witness for `request_fields` (claim C3) at the New Testament book of
`bibleTwo`. -/
theorem request_fields_witness :
    matthewRequest ∈ processBibleRequests bibleTwo "db"
    ∧ matthewRequest.nameTitle = "Matthew 1"
    ∧ matthewRequest.bookIndex = 1 + 1
    ∧ matthewRequest.book.color = notionColors.getD ((1 + 1) % notionColors.length) "" := by
  have h := request_fields bibleTwo "db" (by decide) 1
    ⟨"Matthew", [⟨"Matthew 1", [⟨1, "The book"⟩]⟩]⟩ (by rfl)
    0 ⟨"Matthew 1", [⟨1, "The book"⟩]⟩ (by rfl) matthewRequest (by decide)
  exact ⟨h.1, h.2.1, h.2.2.2.2.1, h.2.2.2.2.2.1⟩

/-- Counterexample to claim C3 as stated: the book names of `mislabeledBible`
are distinct, yet the emitted request's title is the chapter record's stored
title, not `{bookName} {chapterNumber}` (`"Genesis 1"`). -/
theorem request_title_counterexample :
    (processBibleRequests mislabeledBible "db").map CreateRequest.nameTitle
      = ["Not the book name"]
    ∧ "Not the book name" ≠ "Genesis" ++ " " ++ toString (1 : Nat) := by decide

/-! ## Claims about the delivery engine -/

/-- Claim C1 (code behaviour at the failing input): with a request in group 0
that settles only 18000 ms after the group starts (ten failing attempts, each
followed by a 2000 ms pause) and a `getWaitTime()` draw of 1100 ms, the
promise returned by the group function resolves after the 1100 ms wait alone
— the request Array inside `Promise.all` is not a thenable — so group 1
starts at 1100 ms, before group 0's request has settled, whereas the code's
own comment (and the spec) require waiting for both conditions, i.e. until
18000 ms. -/
theorem group_advance_ignores_settlement :
    chunkPromiseResolveTime [18000] 1100 = 1100
    ∧ groupStartTime (fun _ => [18000]) (fun _ => 1100) 1 = 1100
    ∧ groupStartTime (fun _ => [18000]) (fun _ => 1100) 1 < 18000
    ∧ chunkPromiseResolveTimeSpec [18000] 1100 = 18000 := by decide

/-- Claim C2 (code behaviour at the failing input): a request whose first two
attempts fail and whose third succeeds never reaches the claimed midpoint
(the 5th attempt), yet the code inserts a 2000 ms pause before *each* of the
two retries — `Math.ceil(retryCount / 2)` is truthy for every
`retryCount ≥ 1`, so the rapid-retry branch is dead and there is no single
midpoint pause. -/
theorem pause_before_every_retry :
    keepTrying (fun n => decide (n ≤ 2)) "Exodus 1"
      = ([RetryEvent.attempt 1, RetryEvent.pause 2000, RetryEvent.attempt 2,
          RetryEvent.pause 2000, RetryEvent.attempt 3], RetryResult.success) := by decide

/-- Claim C7 (code behaviour at the failing input): a request that fails on
every attempt makes exactly `MAX_RETRY_COUNT = 10` calls (no 11th attempt),
ends fatal with its `Name` title logged, and its fatal exit happens 18000 ms
after its group starts (nine 2000 ms pauses); but with a 1100 ms
`getWaitTime()` draw the next group already starts at 1100 ms — long before
the exit — so the engine does perform further network activity for subsequent
requests, against the claim. -/
theorem fatal_on_tenth_attempt :
    (keepTrying (fun _ => true) "Genesis 1").2 = RetryResult.fatal "Genesis 1"
    ∧ ((keepTrying (fun _ => true) "Genesis 1").1.filter isAttempt).length = MAX_RETRY_COUNT
    ∧ pauseSum (keepTrying (fun _ => true) "Genesis 1").1 = 18000
    ∧ groupStartTime (fun _ => [18000]) (fun _ => 1100) 1 = 1100
    ∧ groupStartTime (fun _ => [18000]) (fun _ => 1100) 1 < 18000 := by decide

/-- Claim C9: the CreateRequest sequence a run constructs depends only on the
input bible and the database id — two runs differing in their random
`getWaitTime()` draws and in their request settle times produce identical
payload sequences; only the schedule varies. -/
theorem run_payloads_deterministic (bible : Bible) (databaseId : String)
    (waitTimes₁ waitTimes₂ : Nat → Nat) (settleTimes₁ settleTimes₂ : Nat → List Nat) :
    (processBibleRun bible databaseId waitTimes₁ settleTimes₁).payloads
      = (processBibleRun bible databaseId waitTimes₂ settleTimes₂).payloads := rfl

/-! ## Claims about the extractor and empty chapters -/

/-- Claim C8: when the metadata is valid (non-empty abbreviation, positive
declared verse count), `getChapterVerses` returns exactly `numOfVerses` verse
texts and raises no error; a verse number with zero matching fragments
silently yields the empty string at its position. -/
theorem extractor_length_and_silent_gap (page : ChapterPage)
    (habbr : page.bookAbbreviation ≠ "") (hn : 0 < page.numOfVerses) :
    ∃ vs, getChapterVerses page = Except.ok vs
      ∧ vs.length = page.numOfVerses
      ∧ ∀ i, i < page.numOfVerses → page.fragments (i + 1) = [] →
          vs.get? i = some "" := by
  have hcond : ¬(page.bookAbbreviation = "" ∨ page.numOfVerses = 0) := by
    push_neg
    exact ⟨habbr, by omega⟩
  refine ⟨(List.range page.numOfVerses).map (fun i =>
      let verseEls := page.fragments (i + 1)
      let verseText :=
        match verseEls with
        | [t] => t
        | _ => String.intercalate " " verseEls
      replaceQuotationMarks verseText), ?_, ?_, ?_⟩
  · unfold getChapterVerses
    rw [if_neg hcond]
  · simp
  · intro i hi hfrag
    rw [List.get?_map, List.get?_range hi]
    simp only [Option.map_some']
    simp only [hfrag]
    decide

/-- Witness for `extractor_length_and_silent_gap` (claim C8): the gapped page
yields two verse texts, the second being the empty string. -/
theorem extractor_length_and_silent_gap_witness :
    ∃ vs, getChapterVerses gappedPage = Except.ok vs
      ∧ vs.length = gappedPage.numOfVerses
      ∧ ∀ i, i < gappedPage.numOfVerses → gappedPage.fragments (i + 1) = [] →
          vs.get? i = some "" :=
  extractor_length_and_silent_gap gappedPage (by decide) (by decide)

/-- Claim C10: a chapter whose verse list is empty contributes no
CreateRequest at all: the span list, both chunkings, and hence the emitted
request list for that chapter are empty, with no error value anywhere. -/
theorem empty_chapter_yields_no_requests (databaseId bookName : String) (bookIdx : Nat)
    (testament : String) (idx : Nat) (ch : ChapterRecord) (h : ch.verses = []) :
    chapterRequests databaseId bookName bookIdx testament idx ch = [] := by
  obtain ⟨title, verses⟩ := ch
  simp only at h
  subst h
  rfl

/-- Witness for `empty_chapter_yields_no_requests` (claim C10) at a concrete
empty chapter. -/
theorem empty_chapter_yields_no_requests_witness :
    chapterRequests "db" "Genesis" 1 "OT" 0 ⟨"Genesis 1", []⟩ = [] :=
  empty_chapter_yields_no_requests "db" "Genesis" 1 "OT" 0 ⟨"Genesis 1", []⟩ rfl

end NotionBible
